import Mathlib

set_option linter.unusedVariables false

/-!
Shallow embedding of `src/src/cargo/sources/git.rs` (the git source provider
of an early Cargo): the `GitReference` / `GitRemote` / `GitDatabase` /
`GitCheckout` data model, the `Source` adapter implementation for
`GitSource`, and the command-string helpers `git`, `git_inherit`,
`git_output`.

External effects (filesystem checks, directory creation/removal, permission
changes, child-process execution) are modelled by an oracle `World`; each
operation returns its result together with the list of effect `Event`s it
attempted, in order, so that side effects are observable in theorems.
-/

namespace Cargo

/-- A filesystem path, as in the Rust `Path` type: a sequence of components.
Rust paths are byte sequences that need not be valid UTF-8; we keep the
lossily-decoded components plus a flag recording whether the underlying
bytes are valid UTF-8 (`Path::as_str` returns `None` exactly when they are
not). -/
structure Path where
  components : List String
  validUtf8 : Bool
deriving DecidableEq, Repr

/-- `Path::dirname()`: the path with its last component removed. -/
def Path.dirname (p : Path) : Path :=
  ⟨p.components.dropLast, p.validUtf8⟩

/-- `Path::join(c)`: append one (valid-UTF-8 literal) component. -/
def Path.join (p : Path) (c : String) : Path :=
  ⟨p.components ++ [c], p.validUtf8⟩

/-- `path.display()`: the lossily decoded textual form of the path. -/
def Path.display (p : Path) : String :=
  String.intercalate "/" p.components

/-- `Path::as_str()`: `some` of the textual form when the bytes are valid
UTF-8, `none` otherwise. -/
def Path.as_str (p : Path) : Option String :=
  if p.validUtf8 then some p.display else none

/-- `util::CargoError`, as constructed by this file: `io_error` wraps an
I/O failure, a process error is a child-command failure, and
`human_error(desc, detail, cause)` wraps a cause with a human-readable
description and an optional detail string. -/
inductive CargoError where
  | ioError (msg : String)
  | processError (msg : String)
  | humanError (desc : String) (detail : Option String) (cause : CargoError)
deriving DecidableEq, Repr

/-- `ProcessBuilder`: a child process to run, as assembled by
`process("git").args(...).cwd(...)`. -/
structure ProcessBuilder where
  program : String
  args : List String
  cwd : Path
deriving DecidableEq, Repr

/-- One attempted external effect, in the order the code attempts them. -/
inductive Event where
  | mkdirRec (p : Path)
  | rmdirRec (p : Path)
  | chmod (p : Path)
  | exec (pb : ProcessBuilder)
  | execOut (pb : ProcessBuilder)
deriving DecidableEq, Repr

/-- The external world: filesystem state and the process executor.
`none` means the call succeeds; `some msg` is the failure it reports.
`execOutput` yields the raw captured stdout (already lossily decoded, as
`str::from_utf8_lossy` does) on success. -/
structure World where
  pathExists : Path → Bool
  mkdirRec : Path → Option String
  rmdirRec : Path → Option String
  chmod : Path → Option String
  execInherit : ProcessBuilder → Option String
  execOutput : ProcessBuilder → Except String String

/-- the Rust call split-on-space-char on a character list: splits on each single
space, keeping empty pieces between consecutive separators. -/
def splitSp : List Char → List (List Char)
  | [] => [[]]
  | c :: rest =>
    match splitSp rest with
    | [] => [[]]
    | w :: ws => if c = ' ' then [] :: w :: ws else (c :: w) :: ws

/-- The Rust `str::trim_right`: the string with trailing whitespace
characters removed. -/
def rustTrimRight (s : String) : String :=
  ⟨(s.data.reverse.dropWhile Char.isWhitespace).reverse⟩

/-- The argument list the code builds from a formatted command string:
split on the space character and collected into a vector. -/
def gitArgs (s : String) : List String :=
  (splitSp s.data).map fun l => ⟨l⟩

/-- `git(path, verbose, str)`: build the `git` process with the
space-split arguments and the given working directory. (The verbose
diagnostic line goes to stderr and carries no result.) -/
def git (path : Path) (verbose : Bool) (str : String) : ProcessBuilder :=
  ⟨"git", gitArgs str, path⟩

/-- `git_inherit`: run the command with inherited streams; on failure wrap
the process error into a human error naming the literal command text. -/
def git_inherit (w : World) (path : Path) (verbose : Bool) (str : String) :
    Except CargoError Unit × List Event :=
  let pb := git path verbose str
  match w.execInherit pb with
  | none => (.ok (), [.exec pb])
  | some err =>
      (.error (.humanError ("Couldn\x27t execute `git " ++ str ++ "`: " ++ err)
        none (.processError err)), [.exec pb])

/-- `git_output`: run the command capturing stdout; on success return the
lossily decoded output with trailing whitespace trimmed; on failure wrap
the process error into a human error naming the literal command text. -/
def git_output (w : World) (path : Path) (verbose : Bool) (str : String) :
    Except CargoError String × List Event :=
  let pb := git path verbose str
  match w.execOutput pb with
  | .ok out => (.ok (rustTrimRight out), [.execOut pb])
  | .error err =>
      (.error (.humanError ("Couldn\x27t execute `git " ++ str ++ "`")
        none (.processError err)), [.execOut pb])

/-- `GitReference`: the default branch (`Master`) or a named
branch/tag/commit-ish. -/
inductive GitReference where
  | master
  | other (s : String)
deriving DecidableEq, Repr

/-- `GitReference::for_str`: classify a raw string. -/
def GitReference.for_str (s : String) : GitReference :=
  if s = "master" then .master else .other s

/-- `GitReference::as_slice`: the canonical string of a reference. -/
def GitReference.as_slice : GitReference → String
  | .master => "master"
  | .other s => s

/-- `GitRemote`: a remote repository identified by URL (its displayed
textual form), plus the verbosity preference. -/
structure GitRemote where
  url : String
  verbose : Bool
deriving DecidableEq, Repr

/-- `GitDatabase`: the local bare mirror of a remote, at `path`. -/
structure GitDatabase where
  remote : GitRemote
  path : Path
  verbose : Bool
deriving DecidableEq, Repr

/-- `GitCheckout`: a working tree at `location`, derived from `database`,
pinned to the `revision` that `reference` resolved to. -/
structure GitCheckout where
  database : GitDatabase
  location : Path
  reference : GitReference
  revision : String
  verbose : Bool
deriving DecidableEq, Repr

/-- `GitRemote::fetch_into`: fetch all heads and tags from the remote URL
into the existing mirror, forcing updates. -/
def GitRemote.fetch_into (self : GitRemote) (w : World) (path : Path) :
    Except CargoError Unit × List Event :=
  git_inherit w path self.verbose
    ("fetch --force --quiet --tags " ++ self.url ++ " refs/heads/*:refs/heads/*")

/-- `GitRemote::clone_into`: recursively create the mirror path, then run a
bare, no-hard-link clone of the remote URL into it (from the parent
directory). A directory-creation failure is wrapped into a human error
whose description and detail both name `dirname`. -/
def GitRemote.clone_into (self : GitRemote) (w : World) (path : Path) :
    Except CargoError Unit × List Event :=
  let dirname := path.dirname
  match w.mkdirRec path with
  | some err =>
      (.error (.humanError ("Couldn\x27t recursively create `" ++ dirname.display ++ "`")
        (some ("path=" ++ dirname.display)) (.ioError err)), [.mkdirRec path])
  | none =>
      let r := git_inherit w dirname self.verbose
        ("clone " ++ self.url ++ " " ++ path.display ++ " --bare --no-hardlinks --quiet")
      (r.1, .mkdirRec path :: r.2)

/-- `GitRemote::checkout`: fetch into the mirror when it already exists on
disk, clone into it otherwise; either way the resulting `GitDatabase` is
this remote bound to the given path. -/
def GitRemote.checkout (self : GitRemote) (w : World) (into : Path) :
    Except CargoError GitDatabase × List Event :=
  if w.pathExists into then
    let r := self.fetch_into w into
    match r.1 with
    | .ok _ => (.ok ⟨self, into, self.verbose⟩, r.2)
    | .error e => (.error e, r.2)
  else
    let r := self.clone_into w into
    match r.1 with
    | .ok _ => (.ok ⟨self, into, self.verbose⟩, r.2)
    | .error e => (.error e, r.2)

/-- `GitDatabase::rev_for`: resolve a reference string to a revision id by
running the resolution command in the mirror and capturing its output. -/
def GitDatabase.rev_for (self : GitDatabase) (w : World) (reference : String) :
    Except CargoError String × List Event :=
  git_output w self.path self.verbose ("rev-parse " ++ reference)

/-- `GitCheckout::get_source`: the mirror path of the owning database. -/
def GitCheckout.get_source (self : GitCheckout) : Path :=
  self.database.path

/-- `GitCheckout::clone_repo`: create the parent directory of `location`,
remove `location` recursively if it already exists, clone from the mirror
with no automatic checkout, then open up the permissions on `location`. -/
def GitCheckout.clone_repo (self : GitCheckout) (w : World) :
    Except CargoError Unit × List Event :=
  let dirname := self.location.dirname
  match w.mkdirRec dirname with
  | some e =>
      (.error (.humanError ("Couldn\x27t mkdir " ++ dirname.display) none (.ioError e)),
        [.mkdirRec dirname])
  | none =>
      let afterRm : Except CargoError Unit × List Event :=
        if w.pathExists self.location then
          match w.rmdirRec self.location with
          | some e =>
              (.error (.humanError ("Couldn\x27t rmdir " ++ self.location.display)
                none (.ioError e)), [.rmdirRec self.location])
          | none => (.ok (), [.rmdirRec self.location])
        else (.ok (), [])
      match afterRm.1 with
      | .error e => (.error e, .mkdirRec dirname :: afterRm.2)
      | .ok _ =>
          let cloneRes := git_inherit w dirname self.verbose
            ("clone --no-checkout --quiet " ++ self.get_source.display ++ " "
              ++ self.location.display)
          match cloneRes.1 with
          | .error e => (.error e, .mkdirRec dirname :: afterRm.2 ++ cloneRes.2)
          | .ok _ =>
              match w.chmod self.location with
              | some e =>
                  (.error (.ioError e),
                    .mkdirRec dirname :: afterRm.2 ++ cloneRes.2 ++ [.chmod self.location])
              | none =>
                  (.ok (),
                    .mkdirRec dirname :: afterRm.2 ++ cloneRes.2 ++ [.chmod self.location])

/-- `GitCheckout::clone_into` (construction): resolve the reference via the
database, build the checkout value, and clone the repository only when the
`.git` marker is absent at the destination. -/
def GitCheckout.clone_into (w : World) (into : Path) (database : GitDatabase)
    (reference : GitReference) (verbose : Bool) :
    Except CargoError GitCheckout × List Event :=
  let revRes := database.rev_for w reference.as_slice
  match revRes.1 with
  | .error e => (.error e, revRes.2)
  | .ok revision =>
      let checkout : GitCheckout := ⟨database, into, reference, revision, verbose⟩
      if !w.pathExists (checkout.location.join ".git") then
        let cr := checkout.clone_repo w
        match cr.1 with
        | .error e => (.error e, revRes.2 ++ cr.2)
        | .ok _ => (.ok checkout, revRes.2 ++ cr.2)
      else
        (.ok checkout, revRes.2)

/-- `GitCheckout::reset`: hard-reset the working tree to a revision. -/
def GitCheckout.reset (self : GitCheckout) (w : World) (revision : String) :
    Except CargoError Unit × List Event :=
  git_inherit w self.location self.verbose ("reset -q --hard " ++ revision)

/-- `GitCheckout::fetch`: fetch from the mirror into the working tree, then
hard-reset to the revision of this checkout. -/
def GitCheckout.fetch (self : GitCheckout) (w : World) :
    Except CargoError Unit × List Event :=
  let f := git_inherit w self.location self.verbose
    ("fetch --force --quiet --tags " ++ self.get_source.display)
  match f.1 with
  | .error e => (.error e, f.2)
  | .ok _ =>
      let r := self.reset w self.revision
      (r.1, f.2 ++ r.2)

/-- `GitCheckout::update_submodules`: recursively materialize submodules. -/
def GitCheckout.update_submodules (self : GitCheckout) (w : World) :
    Except CargoError Unit × List Event :=
  git_inherit w self.location self.verbose "submodule update --init --recursive --quiet"

/-- `GitDatabase::copy_to`: construct/refresh a checkout at `dest` for the
given reference, then fetch + reset it, then update submodules; return the
checkout. -/
def GitDatabase.copy_to (self : GitDatabase) (w : World) (reference : String)
    (dest : Path) : Except CargoError GitCheckout × List Event :=
  let c := GitCheckout.clone_into w dest self (GitReference.for_str reference) self.verbose
  match c.1 with
  | .error e => (.error e, c.2)
  | .ok checkout =>
      let f := checkout.fetch w
      match f.1 with
      | .error e => (.error e, c.2 ++ f.2)
      | .ok _ =>
          let s := checkout.update_submodules w
          match s.1 with
          | .error e => (.error e, c.2 ++ f.2 ++ s.2)
          | .ok _ => (.ok checkout, c.2 ++ f.2 ++ s.2)

/-- Modelled from the spec: `core::NameVer` is not under `src/`; the spec
treats it as a name+version identity used to filter `get()` results. -/
structure NameVer where
  name : String
  version : String
deriving DecidableEq, Repr

/-- Modelled from the spec: `core::Summary` is not under `src/`; the spec
treats it as an opaque value carrying a name+version identity. -/
structure Summary where
  nameVer : NameVer
deriving DecidableEq, Repr

/-- Modelled from the spec: `core::Package` is not under `src/`; the spec
treats it as a black box except for the name+version identity of its summary. -/
structure Package where
  summary : Summary
deriving DecidableEq, Repr

/-- Modelled from the spec: `Package::get_summary`. -/
def Package.get_summary (p : Package) : Summary :=
  p.summary

/-- Modelled from the spec: `Package::is_for_name_ver` — whether the
identity of the package matches the requested name+version. -/
def Package.is_for_name_ver (p : Package) (nv : NameVer) : Bool :=
  p.summary.nameVer = nv

/-- The manifest-reader collaborator `ops::read_manifest` (external, per
the spec an opaque "read manifest at path → Package | error" call), as an
oracle keyed by the textual path it is handed. -/
structure ManifestWorld where
  readManifest : String → Except CargoError Package

/-- The outcome of running code that may panic: the Rust `unwrap` method aborts the
task instead of returning. -/
inductive RunResult (α : Type) where
  | panicked (msg : String)
  | ran (value : α)
deriving DecidableEq, Repr

/-- `read_manifest` (file-local helper): join the fixed manifest filename
onto the path and hand its UTF-8 form to `ops::read_manifest`; the
`as_str().unwrap()` panics when the joined path is not valid UTF-8. -/
def read_manifest (mw : ManifestWorld) (path : Path) :
    RunResult (Except CargoError Package) :=
  let joined := path.join "Cargo.toml"
  match joined.as_str with
  | none => .panicked "called `Option::unwrap()` on a `None` value"
  | some s => .ran (mw.readManifest s)

/-- `GitSource`: the source adapter over one remote, reference, mirror
path and working path. -/
structure GitSource where
  remote : GitRemote
  reference : GitReference
  db_path : Path
  checkout_path : Path
  verbose : Bool
deriving DecidableEq, Repr

/-- `GitSource::new`: classify the raw reference string on construction. -/
def GitSource.new (remote : GitRemote) (reference : String) (db : Path)
    (checkout : Path) (verbose : Bool) : GitSource :=
  ⟨remote, GitReference.for_str reference, db, checkout, verbose⟩

/-- `Source::update` for `GitSource`: clone-or-fetch the mirror, then copy
the tree of the reference into the checkout path. -/
def GitSource.update (self : GitSource) (w : World) :
    Except CargoError Unit × List Event :=
  let r := self.remote.checkout w self.db_path
  match r.1 with
  | .error e => (.error e, r.2)
  | .ok repo =>
      let c := repo.copy_to w self.reference.as_slice self.checkout_path
      match c.1 with
      | .error e => (.error e, r.2 ++ c.2)
      | .ok _ => (.ok (), r.2 ++ c.2)

/-- `Source::list` for `GitSource`: read the manifest at the checkout path
and return the one summary. -/
def GitSource.list (self : GitSource) (mw : ManifestWorld) :
    RunResult (Except CargoError (List Summary)) :=
  match read_manifest mw self.checkout_path with
  | .panicked m => .panicked m
  | .ran (.error e) => .ran (.error e)
  | .ran (.ok pkg) => .ran (.ok [pkg.get_summary])

/-- `Source::download` for `GitSource`: a no-op that always succeeds. -/
def GitSource.download (self : GitSource) (packages : List NameVer) :
    Except CargoError Unit × List Event :=
  (.ok (), [])

/-- `Source::get` for `GitSource`: read the manifest at the checkout path;
return it alone when it matches some requested name+version, the empty
collection otherwise. -/
def GitSource.get (self : GitSource) (mw : ManifestWorld)
    (packages : List NameVer) : RunResult (Except CargoError (List Package)) :=
  match read_manifest mw self.checkout_path with
  | .panicked m => .panicked m
  | .ran (.error e) => .ran (.error e)
  | .ran (.ok pkg) =>
      if packages.any (fun nv => pkg.is_for_name_ver nv) then
        .ran (.ok [pkg])
      else
        .ran (.ok [])

/-!
Helper lemmas about the command wrappers.
-/

theorem git_inherit_trace (w : World) (p : Path) (v : Bool) (s : String) :
    (git_inherit w p v s).2 = [.exec (git p v s)] := by
  cases h : w.execInherit (git p v s) <;> simp [git_inherit, h]

theorem git_inherit_ok_iff (w : World) (p : Path) (v : Bool) (s : String) :
    (git_inherit w p v s).1 = .ok () ↔ w.execInherit (git p v s) = none := by
  cases h : w.execInherit (git p v s) <;> simp [git_inherit, h]

theorem git_inherit_of_ok (w : World) (p : Path) (v : Bool) (s : String)
    (h : w.execInherit (git p v s) = none) :
    git_inherit w p v s = (.ok (), [.exec (git p v s)]) := by
  simp [git_inherit, h]

theorem git_inherit_of_err (w : World) (p : Path) (v : Bool) (s : String)
    (msg : String) (h : w.execInherit (git p v s) = some msg) :
    git_inherit w p v s =
      (.error (.humanError ("Couldn\x27t execute `git " ++ s ++ "`: " ++ msg)
        none (.processError msg)), [.exec (git p v s)]) := by
  simp [git_inherit, h]

theorem git_output_trace (w : World) (p : Path) (v : Bool) (s : String) :
    (git_output w p v s).2 = [.execOut (git p v s)] := by
  cases h : w.execOutput (git p v s) <;> simp [git_output, h]

theorem git_output_error_iff (w : World) (p : Path) (v : Bool) (s : String)
    (e : CargoError) :
    (git_output w p v s).1 = .error e ↔
      ∃ msg, w.execOutput (git p v s) = .error msg ∧
        e = .humanError ("Couldn\x27t execute `git " ++ s ++ "`") none (.processError msg) := by
  cases h : w.execOutput (git p v s) <;> simp [git_output, h, eq_comm]

theorem git_output_ok_iff (w : World) (p : Path) (v : Bool) (s : String)
    (r : String) :
    (git_output w p v s).1 = .ok r ↔
      ∃ out, w.execOutput (git p v s) = .ok out ∧ r = rustTrimRight out := by
  cases h : w.execOutput (git p v s) <;> simp [git_output, h, eq_comm]

/-!
Claim theorems.
-/

/-- C4: `GitReference.for_str s` is `Master` (the default) exactly when `s`
is the primary-branch literal `"master"` and `Other s` otherwise;
`as_slice` maps `Master` to `"master"` and `Other s` to `s`; hence
`as_slice (for_str s) = s` whenever `s` is not `"master"`. Both functions
are total Lean functions with no failure mode. -/
theorem GitReference.for_str_as_slice_spec :
    (∀ s : String, GitReference.for_str s = .master ↔ s = "master") ∧
    (∀ s : String, s ≠ "master" → GitReference.for_str s = .other s) ∧
    GitReference.as_slice .master = "master" ∧
    (∀ s : String, (GitReference.other s).as_slice = s) ∧
    (∀ s : String, s ≠ "master" → (GitReference.for_str s).as_slice = s) := by
  refine ⟨?_, ?_, rfl, fun s => rfl, ?_⟩
  · intro s
    unfold GitReference.for_str
    by_cases h : s = "master" <;> simp [h]
  · intro s h
    unfold GitReference.for_str
    simp [h]
  · intro s h
    unfold GitReference.for_str
    simp [h, GitReference.as_slice]

/-- Witness for C4 at the concrete strings `"master"` and `"feature"`. -/
theorem GitReference.for_str_as_slice_spec_witness :
    GitReference.for_str "master" = .master ∧
    GitReference.for_str "feature" = .other "feature" ∧
    (GitReference.for_str "feature").as_slice = "feature" := by
  refine ⟨(GitReference.for_str_as_slice_spec.1 "master").2 rfl,
    GitReference.for_str_as_slice_spec.2.1 "feature" (by decide),
    GitReference.for_str_as_slice_spec.2.2.2.2 "feature" (by decide)⟩

/-!
Concrete fixtures used by witnesses: a world in which every external call
succeeds and every path exists, one in which no path exists, and sample
remotes/paths.
-/

def wOk : World :=
  ⟨fun _ => true, fun _ => none, fun _ => none, fun _ => none,
    fun _ => none, fun _ => .ok "abc123def\n"⟩

def wNew : World :=
  ⟨fun _ => false, fun _ => none, fun _ => none, fun _ => none,
    fun _ => none, fun _ => .ok "abc123def\n"⟩

def pmir : Path := ⟨["srv", "mirror"], true⟩

def pwork : Path := ⟨["srv", "work"], true⟩

def remA : GitRemote := ⟨"http://example.com/repo", false⟩

def dbA : GitDatabase := ⟨remA, pmir, false⟩

/-- C1: `GitRemote.checkout` branches on on-disk existence of the mirror
path: when the path exists it performs the fetch-into-mirror command (its
whole trace is that one command, no mkdir and no clone), otherwise it
performs the clone-into-mirror sequence; in both branches, success of the
underlying branch yields `.ok` of a database whose remote is this remote
and whose path is exactly the given path — existence of the path alone
never produces an error. -/
theorem GitRemote.checkout_spec (w : World) (r : GitRemote) (p : Path) :
    (w.pathExists p = true →
      (r.checkout w p).2 =
        [.exec (git p r.verbose
          ("fetch --force --quiet --tags " ++ r.url ++ " refs/heads/*:refs/heads/*"))] ∧
      (r.checkout w p).1 =
        (match (r.fetch_into w p).1 with
          | .ok _ => .ok ⟨r, p, r.verbose⟩
          | .error e => .error e)) ∧
    (w.pathExists p = false →
      (r.checkout w p).2 = (r.clone_into w p).2 ∧
      (r.checkout w p).1 =
        (match (r.clone_into w p).1 with
          | .ok _ => .ok ⟨r, p, r.verbose⟩
          | .error e => .error e)) ∧
    (∀ db, (r.checkout w p).1 = .ok db → db.remote = r ∧ db.path = p) := by
  refine ⟨?_, ?_, ?_⟩
  · intro h
    have ht : (r.fetch_into w p).2 =
        [.exec (git p r.verbose
          ("fetch --force --quiet --tags " ++ r.url ++ " refs/heads/*:refs/heads/*"))] :=
      git_inherit_trace w p r.verbose _
    constructor
    · simp only [GitRemote.checkout, h, if_true]
      cases hf : (r.fetch_into w p).1 <;> simp [hf, ht]
    · simp only [GitRemote.checkout, h, if_true]
      cases hf : (r.fetch_into w p).1 <;> simp [hf]
  · intro h
    constructor
    · simp only [GitRemote.checkout, h, Bool.false_eq_true, if_false]
      cases hc : (r.clone_into w p).1 <;> simp [hc]
    · simp only [GitRemote.checkout, h, Bool.false_eq_true, if_false]
      cases hc : (r.clone_into w p).1 <;> simp [hc]
  · intro db hdb
    by_cases h : w.pathExists p
    · simp only [GitRemote.checkout, h, if_true] at hdb
      cases hf : (r.fetch_into w p).1 with
      | ok u =>
          simp [hf] at hdb
          simp [← hdb]
      | error e => simp [hf] at hdb
    · simp only [GitRemote.checkout, h, Bool.false_eq_true, if_false] at hdb
      cases hc : (r.clone_into w p).1 with
      | ok u =>
          simp [hc] at hdb
          simp [← hdb]
      | error e => simp [hc] at hdb

/-- Witness for C1: in a world where the mirror path exists and every
command succeeds, `checkout` returns the database bound to this remote and
path; the existence hypothesis and the resulting conjuncts are discharged
at concrete inputs. -/
theorem GitRemote.checkout_spec_witness :
    (GitRemote.checkout remA wOk pmir).1 = .ok ⟨remA, pmir, false⟩ ∧
    (GitRemote.checkout remA wOk pmir).2 =
      [.exec (git pmir false
        ("fetch --force --quiet --tags http://example.com/repo refs/heads/*:refs/heads/*"))] := by
  have h := GitRemote.checkout_spec wOk remA pmir
  have h1 := h.1 rfl
  refine ⟨?_, ?_⟩
  · rw [h1.2]
    rfl
  · rw [h1.1]
    rfl

theorem GitDatabase.rev_for_trace (db : GitDatabase) (w : World) (r : String) :
    (db.rev_for w r).2 = [.execOut (git db.path db.verbose ("rev-parse " ++ r))] :=
  git_output_trace w db.path db.verbose _

/-- The first effect `clone_repo` attempts is always the recursive creation
of the parent directory of the checkout location; in particular its trace
is never empty. -/
theorem GitCheckout.clone_repo_trace_head (self : GitCheckout) (w : World) :
    ∃ t, (self.clone_repo w).2 = .mkdirRec self.location.dirname :: t := by
  simp only [GitCheckout.clone_repo]
  cases hm : w.mkdirRec self.location.dirname with
  | some e => exact ⟨[], rfl⟩
  | none =>
    repeat' split
    all_goals exact ⟨_, rfl⟩

/-- A resolution failure makes checkout construction fail with that very
error, after only the resolution attempt. -/
theorem GitCheckout.clone_into_rev_error (w : World) (into : Path)
    (db : GitDatabase) (ref : GitReference) (vb : Bool) (e : CargoError)
    (he : (db.rev_for w ref.as_slice).1 = .error e) :
    GitCheckout.clone_into w into db ref vb =
      (.error e, (db.rev_for w ref.as_slice).2) := by
  simp only [GitCheckout.clone_into, he]

/-- A successfully constructed checkout is the database, destination and
reference it was built from, pinned to the revision the reference resolved
to; and when the `.git` marker was absent, its `clone_repo` succeeded. -/
theorem GitCheckout.clone_into_ok (w : World) (into : Path) (db : GitDatabase)
    (ref : GitReference) (vb : Bool) (c : GitCheckout)
    (h : (GitCheckout.clone_into w into db ref vb).1 = .ok c) :
    c = ⟨db, into, ref, c.revision, vb⟩ ∧
    (db.rev_for w ref.as_slice).1 = .ok c.revision ∧
    (w.pathExists (into.join ".git") = false → (c.clone_repo w).1 = .ok ()) := by
  simp only [GitCheckout.clone_into] at h
  cases hr : (db.rev_for w ref.as_slice).1 with
  | error e => simp [hr] at h
  | ok rev =>
      simp only [hr] at h
      by_cases hm : w.pathExists (into.join ".git")
      · simp only [hm, Bool.not_true, Bool.false_eq_true, if_false] at h
        cases h
        exact ⟨rfl, by simp [hr], fun hf => by rw [hf] at hm; cases hm⟩
      · simp only [eq_false_of_ne_true hm, Bool.not_false, if_true] at h
        cases hc : (GitCheckout.clone_repo ⟨db, into, ref, rev, vb⟩ w).1 with
        | error e => simp [hc] at h
        | ok u =>
            simp only [hc] at h
            cases h
            exact ⟨rfl, by simp [hr], fun _ => by rw [hc]⟩

/-- `GitCheckout::fetch` succeeds exactly when both the fetch-from-mirror
command and the hard-reset command succeed, and then its trace is those two
commands in order. -/
theorem GitCheckout.fetch_cases (self : GitCheckout) (w : World) :
    ((self.fetch w).1 = .ok () ↔
      w.execInherit (git self.location self.verbose
        ("fetch --force --quiet --tags " ++ self.get_source.display)) = none ∧
      w.execInherit (git self.location self.verbose
        ("reset -q --hard " ++ self.revision)) = none) ∧
    ((self.fetch w).1 = .ok () →
      (self.fetch w).2 =
        [.exec (git self.location self.verbose
          ("fetch --force --quiet --tags " ++ self.get_source.display)),
         .exec (git self.location self.verbose
          ("reset -q --hard " ++ self.revision))]) := by
  cases hf : w.execInherit (git self.location self.verbose
      ("fetch --force --quiet --tags " ++ self.get_source.display)) with
  | some msg =>
      constructor
      · simp [GitCheckout.fetch, git_inherit, hf]
      · intro h
        simp [GitCheckout.fetch, git_inherit, hf] at h
  | none =>
      cases hr : w.execInherit (git self.location self.verbose
          ("reset -q --hard " ++ self.revision)) with
      | some msg =>
          constructor
          · simp [GitCheckout.fetch, GitCheckout.reset, git_inherit, hf, hr]
          · intro h
            simp [GitCheckout.fetch, GitCheckout.reset, git_inherit, hf, hr] at h
      | none =>
          constructor
          · simp [GitCheckout.fetch, GitCheckout.reset, git_inherit, hf, hr]
          · intro h
            simp [GitCheckout.fetch, GitCheckout.reset, git_inherit, hf, hr]

/-- C2: `GitDatabase.copy_to` performs, in order, checkout construction
(resolution then clone-or-skip), then the fetch-from-mirror command, then
the hard reset to the resolved revision, then the recursive submodule
init+update; on success it returns the checkout carrying the resolved
revision and its trace is the construction trace followed by exactly those
three commands; it fails whenever resolution, construction (clone), fetch,
reset, or the submodule update fails — on success all of them succeeded. -/
theorem GitDatabase.copy_to_spec (w : World) (db : GitDatabase)
    (reference : String) (dest : Path) :
    (∀ e, (db.rev_for w (GitReference.for_str reference).as_slice).1 = .error e →
      (db.copy_to w reference dest).1 = .error e) ∧
    (∀ e, (GitCheckout.clone_into w dest db (GitReference.for_str reference)
        db.verbose).1 = .error e →
      db.copy_to w reference dest =
        (.error e, (GitCheckout.clone_into w dest db (GitReference.for_str reference)
          db.verbose).2)) ∧
    (∀ c, (db.copy_to w reference dest).1 = .ok c →
      (GitCheckout.clone_into w dest db (GitReference.for_str reference)
        db.verbose).1 = .ok c ∧
      c = ⟨db, dest, GitReference.for_str reference, c.revision, db.verbose⟩ ∧
      (db.rev_for w (GitReference.for_str reference).as_slice).1 = .ok c.revision ∧
      (w.pathExists (dest.join ".git") = false → (c.clone_repo w).1 = .ok ()) ∧
      w.execInherit (git dest db.verbose
        ("fetch --force --quiet --tags " ++ db.path.display)) = none ∧
      w.execInherit (git dest db.verbose
        ("reset -q --hard " ++ c.revision)) = none ∧
      w.execInherit (git dest db.verbose
        "submodule update --init --recursive --quiet") = none ∧
      (db.copy_to w reference dest).2 =
        (GitCheckout.clone_into w dest db (GitReference.for_str reference)
          db.verbose).2 ++
        [.exec (git dest db.verbose
            ("fetch --force --quiet --tags " ++ db.path.display)),
         .exec (git dest db.verbose ("reset -q --hard " ++ c.revision)),
         .exec (git dest db.verbose
            "submodule update --init --recursive --quiet")]) := by
  refine ⟨?_, ?_, ?_⟩
  · intro e he
    have hc := GitCheckout.clone_into_rev_error w dest db
      (GitReference.for_str reference) db.verbose e he
    simp only [GitDatabase.copy_to, hc]
  · intro e he
    simp only [GitDatabase.copy_to]
    cases hc : (GitCheckout.clone_into w dest db (GitReference.for_str reference)
        db.verbose).1 with
    | error e2 =>
        rw [hc] at he
        cases he
        simp
    | ok c => rw [hc] at he; cases he
  · intro c hok
    simp only [GitDatabase.copy_to] at hok
    cases hc : (GitCheckout.clone_into w dest db (GitReference.for_str reference)
        db.verbose).1 with
    | error e => simp [hc] at hok
    | ok c0 =>
        simp only [hc] at hok
        cases hf : (c0.fetch w).1 with
        | error e => simp [hf] at hok
        | ok u =>
            simp only [hf] at hok
            cases hs : (c0.update_submodules w).1 with
            | error e => simp [hs] at hok
            | ok u2 =>
                simp only [hs] at hok
                have hcc : c0 = c := by
                  cases u; cases u2
                  simpa using hok
                subst hcc
                obtain ⟨hshape, hrev, hclone⟩ :=
                  GitCheckout.clone_into_ok w dest db (GitReference.for_str reference)
                    db.verbose c0 hc
                have hloc : c0.location = dest := by rw [hshape]
                have hvb : c0.verbose = db.verbose := by rw [hshape]
                have hsrc : c0.get_source = db.path := by
                  rw [GitCheckout.get_source, hshape]
                have hfc := GitCheckout.fetch_cases c0 w
                have hfe : (c0.fetch w).1 = .ok () := by cases u; exact hf
                have hboth := (hfc.1).1 hfe
                have hftrace := hfc.2 hfe
                have hsub : w.execInherit (git c0.location c0.verbose
                    "submodule update --init --recursive --quiet") = none := by
                  have := (git_inherit_ok_iff w c0.location c0.verbose
                    "submodule update --init --recursive --quiet").1
                  apply this
                  cases u2
                  exact hs
                have hstrace : (c0.update_submodules w).2 =
                    [.exec (git c0.location c0.verbose
                      "submodule update --init --recursive --quiet")] :=
                  git_inherit_trace w c0.location c0.verbose _
                refine ⟨rfl, hshape, hrev, hclone, ?_, ?_, ?_, ?_⟩
                · rw [← hloc, ← hvb, ← hsrc]
                  exact hboth.1
                · rw [← hloc, ← hvb]
                  exact hboth.2
                · rw [← hloc, ← hvb]
                  exact hsub
                · simp only [GitDatabase.copy_to, hc, hf, hs]
                  rw [hftrace, hstrace, hloc, hvb, hsrc]
                  simp

/-- Witness for C2: in the all-succeeding world with the `.git` marker
present, `copy_to` returns the checkout pinned to the resolved revision and
its trace is the resolution command followed by fetch, reset, and submodule
update. -/
theorem GitDatabase.copy_to_spec_witness :
    (GitDatabase.copy_to dbA wOk "master" pwork).1 =
      .ok ⟨dbA, pwork, .master, "abc123def", false⟩ ∧
    (GitDatabase.copy_to dbA wOk "master" pwork).2 =
      [.execOut (git pmir false "rev-parse master"),
       .exec (git pwork false "fetch --force --quiet --tags srv/mirror"),
       .exec (git pwork false "reset -q --hard abc123def"),
       .exec (git pwork false "submodule update --init --recursive --quiet")] := by
  have h := (GitDatabase.copy_to_spec wOk dbA "master" pwork).2.2
    ⟨dbA, pwork, .master, "abc123def", false⟩ (by rfl)
  refine ⟨by rfl, ?_⟩
  have ht := h.2.2.2.2.2.2.2
  simpa using ht

/-- C5: constructing a checkout (`GitCheckout::clone_into`) at a
destination where the `.git` marker directory already exists only resolves
the reference — its entire effect trace is the single captured resolution
command, so no removal, no clone, no permission change happen — and yields
the checkout carrying the resolved revision; when the marker is absent and
resolution succeeds, `clone_repo` runs (its nonempty trace follows the
resolution command). -/
theorem GitCheckout.clone_into_skip_spec (w : World) (into : Path)
    (db : GitDatabase) (ref : GitReference) (vb : Bool) :
    (w.pathExists (into.join ".git") = true →
      (∀ rev, (db.rev_for w ref.as_slice).1 = .ok rev →
        GitCheckout.clone_into w into db ref vb =
          (.ok ⟨db, into, ref, rev, vb⟩,
            [.execOut (git db.path db.verbose ("rev-parse " ++ ref.as_slice))])) ∧
      (∀ e, (db.rev_for w ref.as_slice).1 = .error e →
        GitCheckout.clone_into w into db ref vb =
          (.error e, [.execOut (git db.path db.verbose ("rev-parse " ++ ref.as_slice))]))) ∧
    (w.pathExists (into.join ".git") = false →
      ∀ rev, (db.rev_for w ref.as_slice).1 = .ok rev →
        (GitCheckout.clone_into w into db ref vb).2 =
          .execOut (git db.path db.verbose ("rev-parse " ++ ref.as_slice)) ::
            (GitCheckout.clone_repo ⟨db, into, ref, rev, vb⟩ w).2 ∧
        (GitCheckout.clone_repo ⟨db, into, ref, rev, vb⟩ w).2 ≠ [] ∧
        (GitCheckout.clone_into w into db ref vb).1 =
          (match (GitCheckout.clone_repo ⟨db, into, ref, rev, vb⟩ w).1 with
            | .ok _ => .ok ⟨db, into, ref, rev, vb⟩
            | .error e => .error e)) := by
  have htr := GitDatabase.rev_for_trace db w ref.as_slice
  constructor
  · intro h
    constructor
    · intro rev hr
      simp only [GitCheckout.clone_into, hr, h, Bool.not_true, Bool.false_eq_true,
        if_false, ← htr]
    · intro e he
      simp only [GitCheckout.clone_into, he, ← htr]
  · intro h rev hr
    obtain ⟨t, ht⟩ := GitCheckout.clone_repo_trace_head ⟨db, into, ref, rev, vb⟩ w
    refine ⟨?_, ?_, ?_⟩
    · simp only [GitCheckout.clone_into, hr, h, Bool.not_false, if_true]
      cases hc : (GitCheckout.clone_repo ⟨db, into, ref, rev, vb⟩ w).1 <;>
        simp [hc, htr]
    · simp [ht]
    · simp only [GitCheckout.clone_into, hr, h, Bool.not_false, if_true]
      cases hc : (GitCheckout.clone_repo ⟨db, into, ref, rev, vb⟩ w).1 <;>
        simp [hc]

/-- Witness for C5: with the `.git` marker present and a resolving world,
construction returns the checkout pinned to the trimmed resolved revision
and its trace is exactly the one resolution command. -/
theorem GitCheckout.clone_into_skip_spec_witness :
    GitCheckout.clone_into wOk pwork dbA .master false =
      (.ok ⟨dbA, pwork, .master, "abc123def", false⟩,
        [.execOut (git pmir false "rev-parse master")]) := by
  have h := ((GitCheckout.clone_into_skip_spec wOk pwork dbA .master false).1
    rfl).1 "abc123def" (by rfl)
  simpa using h

/-- C7: `GitSource.download` returns success for every adapter state and
every requested list, and performs no effect at all (empty event trace). -/
theorem GitSource.download_noop :
    ∀ (s : GitSource) (packages : List NameVer),
      s.download packages = (.ok (), []) := by
  intro s packages
  rfl

/-- A sample source adapter used by witnesses. -/
def srcA : GitSource := ⟨remA, .master, pmir, pwork, false⟩

/-- A manifest world whose reader always returns the package `foo 1.0.0`. -/
def mwFoo : ManifestWorld :=
  ⟨fun _ => .ok ⟨⟨⟨"foo", "1.0.0"⟩⟩⟩⟩

/-- C6: when the manifest at the working path reads successfully as `pkg`,
`GitSource.get` returns the one-element collection `[pkg]` exactly when
some requested name+version matches the identity of the package and the
empty collection when none does; and a returned error is always the error
of the manifest read itself — a non-match alone never produces one. -/
theorem GitSource.get_spec (mw : ManifestWorld) (s : GitSource)
    (packages : List NameVer) :
    (∀ pkg, read_manifest mw s.checkout_path = .ran (.ok pkg) →
      ((packages.any fun nv => pkg.is_for_name_ver nv) = true →
        s.get mw packages = .ran (.ok [pkg])) ∧
      ((packages.any fun nv => pkg.is_for_name_ver nv) = false →
        s.get mw packages = .ran (.ok []))) ∧
    (∀ e, s.get mw packages = .ran (.error e) →
      read_manifest mw s.checkout_path = .ran (.error e)) := by
  constructor
  · intro pkg hm
    constructor
    · intro hmatch
      simp [GitSource.get, hm, hmatch]
    · intro hmatch
      simp [GitSource.get, hm, hmatch]
  · intro e he
    cases hm : read_manifest mw s.checkout_path with
    | panicked m => simp [GitSource.get, hm] at he
    | ran v =>
        cases v with
        | error e2 => simp_all [GitSource.get]
        | ok pkg =>
            by_cases hmatch : (packages.any fun nv => pkg.is_for_name_ver nv) = true
            · simp [GitSource.get, hm, hmatch] at he
            · simp [GitSource.get, hm, eq_false_of_ne_true hmatch] at he

/-- Witness for C6: against a manifest declaring `foo 1.0.0`, requesting
`foo 1.0.0` returns exactly that package and requesting `foo 2.0.0`
returns the empty collection. -/
theorem GitSource.get_spec_witness :
    GitSource.get srcA mwFoo [⟨"foo", "1.0.0"⟩] = .ran (.ok [⟨⟨⟨"foo", "1.0.0"⟩⟩⟩]) ∧
    GitSource.get srcA mwFoo [⟨"foo", "2.0.0"⟩] = .ran (.ok []) := by
  constructor
  · exact (((GitSource.get_spec mwFoo srcA [⟨"foo", "1.0.0"⟩]).1
      ⟨⟨⟨"foo", "1.0.0"⟩⟩⟩ rfl).1 (by decide))
  · exact (((GitSource.get_spec mwFoo srcA [⟨"foo", "2.0.0"⟩]).1
      ⟨⟨⟨"foo", "1.0.0"⟩⟩⟩ rfl).2 (by decide))

/-- C9: `read_manifest` unwraps the UTF-8 conversion of the joined
manifest path, so whenever the working path (and hence the joined path) is
not valid UTF-8, both `GitSource.list` and `GitSource.get` panic instead
of returning the manifest-read error. -/
theorem GitSource.get_list_panic_spec (mw : ManifestWorld) (s : GitSource)
    (packages : List NameVer) (h : s.checkout_path.validUtf8 = false) :
    (s.checkout_path.join "Cargo.toml").as_str = none ∧
    s.get mw packages = .panicked "called `Option::unwrap()` on a `None` value" ∧
    s.list mw = .panicked "called `Option::unwrap()` on a `None` value" := by
  have hj : (s.checkout_path.join "Cargo.toml").as_str = none := by
    simp [Path.as_str, Path.join, h]
  have hr : read_manifest mw s.checkout_path =
      .panicked "called `Option::unwrap()` on a `None` value" := by
    simp [read_manifest, hj]
  exact ⟨hj, by simp [GitSource.get, hr], by simp [GitSource.list, hr]⟩

/-- Witness for C9 at a concrete non-UTF-8 working path. -/
theorem GitSource.get_list_panic_spec_witness :
    GitSource.get ⟨remA, .master, pmir, ⟨["w�rk"], false⟩, false⟩ mwFoo [] =
      .panicked "called `Option::unwrap()` on a `None` value" :=
  (GitSource.get_list_panic_spec mwFoo
    ⟨remA, .master, pmir, ⟨["w�rk"], false⟩, false⟩ [] rfl).2.1

/-- Modelled from the spec: the error taxonomy of §7 calls an error a
process error when it is (a human-readable wrap of) a child-command
failure; this predicate recognises that kind. A reference-resolution error
"distinct from process error" would have to make this predicate `false`. -/
def CargoError.causeIsProcess : CargoError → Bool
  | .processError _ => true
  | .humanError _ _ c => c.causeIsProcess
  | .ioError _ => false

/-- A world in which every captured command fails, as `git rev-parse` does
for a reference that does not exist in the mirror. -/
def wRevFail : World :=
  ⟨fun _ => true, fun _ => none, fun _ => none, fun _ => none,
    fun _ => none, fun _ => .error "fatal: unknown revision"⟩

/-- Counterexample to C3: when the reference cannot be resolved, `rev_for`
fails with the generic human wrap of a process error — the same error kind
(a wrapped child-command failure, `causeIsProcess = true`) that any failed
VCS command produces, as the third conjunct shows for a fetch command under
the same executor fault — so the error is not distinct from a process
error and callers cannot distinguish resolution failure by kind. -/
theorem rev_for_error_not_distinct_cex :
    (GitDatabase.rev_for dbA wRevFail "no-such-ref").1 =
      .error (.humanError "Couldn\x27t execute `git rev-parse no-such-ref`" none
        (.processError "fatal: unknown revision")) ∧
    CargoError.causeIsProcess
      (.humanError "Couldn\x27t execute `git rev-parse no-such-ref`" none
        (.processError "fatal: unknown revision")) = true ∧
    (git_output wRevFail pwork false "fetch --force --quiet --tags srv/mirror").1 =
      .error (.humanError "Couldn\x27t execute `git fetch --force --quiet --tags srv/mirror`"
        none (.processError "fatal: unknown revision")) :=
  ⟨rfl, rfl, rfl⟩

/-- C3 as amended: when the resolution command fails (as it does for a
reference that cannot be resolved in the mirror), `rev_for` fails with the
human-wrapped process error naming the literal resolution command — the
same error kind as any failed command, with no distinct
reference-resolution category — and it returns a revision only when the
resolution command itself succeeded, and then exactly its trimmed output,
never a revision id fabricated on failure. -/
theorem GitDatabase.rev_for_spec (db : GitDatabase) (w : World) (r : String) :
    (∀ msg, w.execOutput (git db.path db.verbose ("rev-parse " ++ r)) = .error msg →
      (db.rev_for w r).1 =
        .error (.humanError ("Couldn\x27t execute `git " ++ ("rev-parse " ++ r) ++ "`")
          none (.processError msg)) ∧
      CargoError.causeIsProcess
        (.humanError ("Couldn\x27t execute `git " ++ ("rev-parse " ++ r) ++ "`")
          none (.processError msg)) = true) ∧
    (∀ rev, (db.rev_for w r).1 = .ok rev →
      ∃ out, w.execOutput (git db.path db.verbose ("rev-parse " ++ r)) = .ok out ∧
        rev = rustTrimRight out) := by
  constructor
  · intro msg hmsg
    constructor
    · simp [GitDatabase.rev_for, git_output, hmsg]
    · rfl
  · intro rev hrev
    exact (git_output_ok_iff w db.path db.verbose ("rev-parse " ++ r) rev).1 hrev

/-- Witness for the amended C3 at a concrete unresolvable reference. -/
theorem GitDatabase.rev_for_spec_witness :
    (GitDatabase.rev_for dbA wRevFail "no-such").1 =
      .error (.humanError ("Couldn\x27t execute `git " ++ ("rev-parse " ++ "no-such") ++ "`")
        none (.processError "fatal: unknown revision")) :=
  ((GitDatabase.rev_for_spec dbA wRevFail "no-such").1 "fatal: unknown revision" rfl).1

/-- A world in which every recursive directory creation fails. -/
def wMkdirFail : World :=
  ⟨fun _ => true, fun _ => some "disk full", fun _ => none, fun _ => none,
    fun _ => none, fun _ => .ok ""⟩

/-- Counterexample to C8: the directory-creation call of the
clone-into-mirror path is issued for the mirror path itself
(`srv/mirror`), not (only) for its parent directories, and the resulting
I/O error names the parent directory `srv` — not the directory whose
creation was requested and failed. -/
theorem clone_into_mkdir_cex :
    (GitRemote.clone_into remA wMkdirFail pmir).2 = [Event.mkdirRec pmir] ∧
    Event.mkdirRec pmir.dirname ∉ (GitRemote.clone_into remA wMkdirFail pmir).2 ∧
    pmir ≠ pmir.dirname ∧
    (GitRemote.clone_into remA wMkdirFail pmir).1 =
      .error (.humanError "Couldn\x27t recursively create `srv`" (some "path=srv")
        (.ioError "disk full")) ∧
    pmir.display = "srv/mirror" ∧
    pmir.dirname.display = "srv" := by
  refine ⟨rfl, ?_, ?_, rfl, rfl, rfl⟩
  · decide
  · decide

/-- C8 as amended: in the clone-into-mirror path the directory created
before cloning is the mirror path itself, created recursively (so its
parents are created along the way); on directory-creation failure the
resulting I/O error names the parent directory of the mirror path (in both
its description and its detail), not the mirror path; and the clone itself
is bare, with no hard links, of the remote URL into the mirror path, run
from the parent directory. -/
theorem GitRemote.clone_into_spec (w : World) (r : GitRemote) (p : Path) :
    (∀ e, w.mkdirRec p = some e →
      GitRemote.clone_into r w p =
        (.error (.humanError
            ("Couldn\x27t recursively create `" ++ p.dirname.display ++ "`")
            (some ("path=" ++ p.dirname.display)) (.ioError e)),
          [.mkdirRec p])) ∧
    (w.mkdirRec p = none →
      (GitRemote.clone_into r w p).2 =
        [.mkdirRec p,
         .exec (git p.dirname r.verbose
           ("clone " ++ r.url ++ " " ++ p.display ++ " --bare --no-hardlinks --quiet"))] ∧
      (GitRemote.clone_into r w p).1 =
        (git_inherit w p.dirname r.verbose
          ("clone " ++ r.url ++ " " ++ p.display ++ " --bare --no-hardlinks --quiet")).1) := by
  constructor
  · intro e he
    simp only [GitRemote.clone_into, he]
  · intro hn
    constructor
    · simp only [GitRemote.clone_into, hn]
      rw [git_inherit_trace]
    · simp only [GitRemote.clone_into, hn]

/-- Witness for the amended C8: with directory creation succeeding, the
trace is the recursive creation of the mirror path followed by the bare
no-hard-links clone command run in the parent directory. -/
theorem GitRemote.clone_into_spec_witness :
    (GitRemote.clone_into remA wOk pmir).2 =
      [.mkdirRec pmir,
       .exec (git pmir.dirname false
         "clone http://example.com/repo srv/mirror --bare --no-hardlinks --quiet")] := by
  have h := ((GitRemote.clone_into_spec wOk remA pmir).2 rfl).1
  simpa using h

/-!
List-level facts about the space-splitting of command strings, for C10.
-/

theorem splitSp_ne_nil (cs : List Char) : splitSp cs ≠ [] := by
  induction cs with
  | nil => simp [splitSp]
  | cons c rest ih =>
      simp only [splitSp]
      cases h : splitSp rest with
      | nil => simp
      | cons w ws => by_cases hc : c = ' ' <;> simp [hc]

theorem splitSp_no_space (xs : List Char) (h : ' ' ∉ xs) : splitSp xs = [xs] := by
  induction xs with
  | nil => rfl
  | cons c rest ih =>
      have hc : ¬ c = ' ' := fun e => h (by simp [e])
      have hr : ' ' ∉ rest := fun m => h (List.mem_cons_of_mem _ m)
      simp only [splitSp, ih hr]
      simp [hc]

theorem splitSp_append_cons (xs ys : List Char) (h : ' ' ∉ xs) :
    splitSp (xs ++ ' ' :: ys) = xs :: splitSp ys := by
  induction xs with
  | nil =>
      simp only [List.nil_append, splitSp]
      cases hy : splitSp ys with
      | nil => exact absurd hy (splitSp_ne_nil ys)
      | cons w ws => simp
  | cons c rest ih =>
      have hc : ¬ c = ' ' := fun e => h (by simp [e])
      have hr : ' ' ∉ rest := fun m => h (List.mem_cons_of_mem _ m)
      have key : splitSp (c :: (rest ++ ' ' :: ys)) = (c :: rest) :: splitSp ys := by
        rw [show splitSp (c :: (rest ++ ' ' :: ys)) =
            (match splitSp (rest ++ ' ' :: ys) with
              | [] => [[]]
              | w :: ws => if c = ' ' then [] :: w :: ws else (c :: w) :: ws) from rfl]
        rw [ih hr]
        simp [hc]
      rw [List.cons_append, key]

/-- Splitting a string of the form `a ++ " " ++ b` where `a` has no space
yields `a` followed by the split of `b`. -/
theorem gitArgs_sep (a b : String) (h : ' ' ∉ a.data) :
    gitArgs (a ++ " " ++ b) = a :: gitArgs b := by
  have hd : (a ++ " " ++ b).data = a.data ++ ' ' :: b.data := by
    simp [String.data_append]
  unfold gitArgs
  rw [hd, splitSp_append_cons a.data b.data h]
  rfl

/-- C10: every VCS command is handed to the executor with the argument
list obtained by splitting the formatted command string on single space
characters (`git` builds exactly `gitArgs`); consequently, substituting a
remote URL containing a space into the clone-into-mirror command string —
as `GitRemote::clone_into` does — produces an argument list in which the
URL appears as two separate arguments and is not any single argument. -/
theorem git_splits_on_spaces :
    (∀ (p : Path) (v : Bool) (s : String), (git p v s).args = gitArgs s) ∧
    (∀ u1 u2 pd : String, ' ' ∉ u1.data → ' ' ∉ u2.data → ' ' ∉ pd.data →
      gitArgs ("clone " ++ (u1 ++ " " ++ u2) ++ " " ++ pd ++
          " --bare --no-hardlinks --quiet") =
        ["clone", u1, u2, pd, "--bare", "--no-hardlinks", "--quiet"] ∧
      (u1 ++ " " ++ u2) ∉
        gitArgs ("clone " ++ (u1 ++ " " ++ u2) ++ " " ++ pd ++
          " --bare --no-hardlinks --quiet")) := by
  constructor
  · intro p v s
    rfl
  · intro u1 u2 pd hu1 hu2 hpd
    have h1 : "clone ".data = ['c', 'l', 'o', 'n', 'e', ' '] := rfl
    have h2 : " ".data = [' '] := rfl
    have h3 : " --bare --no-hardlinks --quiet".data =
        ' ' :: "--bare --no-hardlinks --quiet".data := rfl
    have hdata : ("clone " ++ (u1 ++ " " ++ u2) ++ " " ++ pd ++
        " --bare --no-hardlinks --quiet").data =
        ['c', 'l', 'o', 'n', 'e'] ++ ' ' :: (u1.data ++ ' ' ::
          (u2.data ++ ' ' :: (pd.data ++ ' ' ::
            "--bare --no-hardlinks --quiet".data))) := by
      simp [String.data_append, h1, h2, h3]
    have htail : splitSp "--bare --no-hardlinks --quiet".data =
        ["--bare".data, "--no-hardlinks".data, "--quiet".data] := by decide
    have hsplit : gitArgs ("clone " ++ (u1 ++ " " ++ u2) ++ " " ++ pd ++
        " --bare --no-hardlinks --quiet") =
        ["clone", u1, u2, pd, "--bare", "--no-hardlinks", "--quiet"] := by
      unfold gitArgs
      rw [hdata, splitSp_append_cons _ _ (by decide),
        splitSp_append_cons _ _ hu1, splitSp_append_cons _ _ hu2,
        splitSp_append_cons _ _ hpd, htail]
      rfl
    refine ⟨hsplit, ?_⟩
    intro hmem
    have hsp : ' ' ∈ (u1 ++ " " ++ u2).data := by
      simp [String.data_append]
    rw [hsplit] at hmem
    simp only [List.mem_cons, List.not_mem_nil, or_false] at hmem
    rcases hmem with h | h | h | h | h | h | h
    all_goals rw [h] at hsp
    · exact absurd hsp (by decide)
    · exact hu1 hsp
    · exact hu2 hsp
    · exact hpd hsp
    · exact absurd hsp (by decide)
    · exact absurd hsp (by decide)
    · exact absurd hsp (by decide)

/-- Witness for C10 at a concrete URL containing a space: the URL is
passed to the executor as the two arguments `"http://a"` and `"b"`. -/
theorem git_splits_on_spaces_witness :
    gitArgs ("clone " ++ ("http://a" ++ " " ++ "b") ++ " " ++ "dest" ++
        " --bare --no-hardlinks --quiet") =
      ["clone", "http://a", "b", "dest", "--bare", "--no-hardlinks", "--quiet"] ∧
    ("http://a" ++ " " ++ "b") ∉
      gitArgs ("clone " ++ ("http://a" ++ " " ++ "b") ++ " " ++ "dest" ++
        " --bare --no-hardlinks --quiet") :=
  git_splits_on_spaces.2 "http://a" "b" "dest" (by decide) (by decide) (by decide)

end Cargo
